import Mathlib

/-!
Verification of the NNUE chess-evaluation core of this repository.

The definitions below are a shallow embedding of the Python source:
* `get_halfkp_features`, `Board.king`, `square_mirror`, `piece_to_index`
  embed `HalfKPFeatures._get_halfkp_features` from `NNUE/nnue_trainer.py`
  (python-chess conventions: squares are 0..63 with a1 = 0, `chess.WHITE`
  is the boolean true, `chess.square_mirror sq = sq xor 56`, and
  `board.king color` returns the highest square holding a king of that
  color, or none);
* `evaluate_position`, `score_to_external`, `external_to_target` embed
  `ModelEvaluator.evaluate_position` from `NNUE/model_eval.py` and the
  target normalization of `ChessDataset.__getitem__` from
  `NNUE/nnue_trainer.py` (numeric values are modelled by rationals);
* `export_blob`, `write_feature_transformer`, `write_output_layers`,
  `export_stockfish_nnue` embed `NNUEExporter.export_stockfish_nnue`
  from `NNUE/model_eval.py` (bytes are naturals below 256, little-endian
  as produced by `struct.pack` and numpy `tobytes` on x86);
* `NNUE.forward` embeds the network of class `NNUE` in
  `NNUE/nnue_trainer.py` over the reals.
-/

/-! ## Position codec: `HalfKPFeatures._get_halfkp_features` -/

inductive PieceType where
  | pawn
  | knight
  | bishop
  | rook
  | queen
  | king
deriving DecidableEq, Repr

/-- A chess piece: its type and its color (`true` = white, as in python-chess). -/
structure Piece where
  pieceType : PieceType
  color : Bool
deriving DecidableEq, Repr

/-- A board as read by the encoder: the `piece_map` association
(square ↦ piece) and the side to move. -/
structure Board where
  pieceMap : List (Nat × Piece)
  turn : Bool
deriving Repr

def WHITE : Bool := true

def BLACK : Bool := false

/-- `chess.square_mirror`: flips the rank of a square (xor with 56). -/
def square_mirror (sq : Nat) : Nat := sq ^^^ 56

/-- The `piece_to_index` table of `HalfKPFeatures.__init__`. -/
def piece_to_index : PieceType → Nat
  | .pawn => 0
  | .knight => 1
  | .bishop => 2
  | .rook => 3
  | .queen => 4
  | .king => 5

/-- `board.king color` of python-chess: the highest square occupied by a
king of the given color, or `none` when there is no such king. -/
def Board.king (b : Board) (c : Bool) : Option Nat :=
  ((b.pieceMap.filter fun sp =>
    sp.2.pieceType == PieceType.king && sp.2.color == c).map (·.1)).max?

/-- Rank-mirror a square exactly when encoding the black perspective
(lines 100-101 and 109-110 of `nnue_trainer.py`). -/
def mirrorIf (c : Bool) (sq : Nat) : Nat :=
  if c = BLACK then square_mirror sq else sq

/-- The HalfKP index formula of line 117-122 of `nnue_trainer.py`:
`king_square * 10 * 64 + piece_color * 6 * 64 + piece_type * 64 + square`. -/
def halfkpIndex (ks colorBucket ptIdx sq : Nat) : Nat :=
  ks * 10 * 64 + colorBucket * 6 * 64 + ptIdx * 64 + sq

/-- One iteration of the piece loop of `_get_halfkp_features`: skip kings,
compute the index, and write the bit only when the index is below 768. -/
def halfkpStep (c : Bool) (ks : Nat) (acc : List ℚ) (sp : Nat × Piece) : List ℚ :=
  if sp.2.pieceType = PieceType.king then acc
  else if halfkpIndex ks (if sp.2.color = c then 0 else 1)
      (piece_to_index sp.2.pieceType) (mirrorIf c sp.1) < 768 then
    acc.set (halfkpIndex ks (if sp.2.color = c then 0 else 1)
      (piece_to_index sp.2.pieceType) (mirrorIf c sp.1)) 1
  else acc

/-- `HalfKPFeatures._get_halfkp_features board color`: a 768-entry 0/1
vector; all zeros when the king of `color` is missing. -/
def get_halfkp_features (b : Board) (c : Bool) : List ℚ :=
  match b.king c with
  | none => List.replicate 768 0
  | some ks0 => b.pieceMap.foldl (halfkpStep c (mirrorIf c ks0)) (List.replicate 768 0)

/-- The proposition that a piece-map entry writes feature bit `i`:
the entry is not a king and the HalfKP formula maps it to `i`. -/
def pieceSetsIndex (c : Bool) (ks : Nat) (sp : Nat × Piece) (i : Nat) : Prop :=
  sp.2.pieceType ≠ PieceType.king ∧
    halfkpIndex ks (if sp.2.color = c then 0 else 1)
      (piece_to_index sp.2.pieceType) (mirrorIf c sp.1) = i

instance (c : Bool) (ks : Nat) (sp : Nat × Piece) (i : Nat) :
    Decidable (pieceSetsIndex c ks sp i) := by
  unfold pieceSetsIndex; infer_instance

/-! Helper lemmas about `List.set`/`List.getD`. -/

theorem getD_set_self (l : List ℚ) (j : Nat) (a : ℚ) (h : j < l.length) :
    (l.set j a).getD j 0 = a := by
  induction l generalizing j with
  | nil => simp at h
  | cons x t ih =>
    cases j with
    | zero => simp
    | succ n => simpa using ih n (by simpa using h)

theorem getD_set_ne (l : List ℚ) (i j : Nat) (a : ℚ) (h : i ≠ j) :
    (l.set j a).getD i 0 = l.getD i 0 := by
  induction l generalizing i j with
  | nil => simp
  | cons x t ih =>
    cases j with
    | zero =>
      cases i with
      | zero => exact absurd rfl h
      | succ m => simp
    | succ n =>
      cases i with
      | zero => simp
      | succ m => simpa using ih m n (by omega)

theorem halfkpStep_length (c : Bool) (ks : Nat) (acc : List ℚ) (sp : Nat × Piece) :
    (halfkpStep c ks acc sp).length = acc.length := by
  unfold halfkpStep
  by_cases hk : sp.2.pieceType = PieceType.king
  · rw [if_pos hk]
  · rw [if_neg hk]
    by_cases hlt : halfkpIndex ks (if sp.2.color = c then 0 else 1)
        (piece_to_index sp.2.pieceType) (mirrorIf c sp.1) < 768
    · rw [if_pos hlt, List.length_set]
    · rw [if_neg hlt]

theorem halfkpStep_getD (c : Bool) (ks : Nat) (acc : List ℚ) (sp : Nat × Piece)
    (i : Nat) (hi : i < 768) (hlen : acc.length = 768) :
    ((halfkpStep c ks acc sp).getD i 0 = 1 ↔
      acc.getD i 0 = 1 ∨ pieceSetsIndex c ks sp i) := by
  unfold halfkpStep pieceSetsIndex
  by_cases hk : sp.2.pieceType = PieceType.king
  · simp [hk]
  · rw [if_neg hk]
    set idx := halfkpIndex ks (if sp.2.color = c then 0 else 1)
      (piece_to_index sp.2.pieceType) (mirrorIf c sp.1) with hidx
    by_cases hlt : idx < 768
    · rw [if_pos hlt]
      by_cases hij : i = idx
      · rw [hij, getD_set_self acc idx 1 (by omega)]
        simp [hk]
      · rw [getD_set_ne acc i idx 1 hij]
        constructor
        · exact fun h => Or.inl h
        · rintro (h | ⟨-, h⟩)
          · exact h
          · exact absurd h.symm hij
    · rw [if_neg hlt]
      constructor
      · exact fun h => Or.inl h
      · rintro (h | ⟨-, h⟩)
        · exact h
        · omega

theorem foldl_halfkp_char (c : Bool) (ks : Nat) (l : List (Nat × Piece))
    (acc : List ℚ) (hlen : acc.length = 768) :
    (l.foldl (halfkpStep c ks) acc).length = 768 ∧
      ∀ i, i < 768 →
        ((l.foldl (halfkpStep c ks) acc).getD i 0 = 1 ↔
          acc.getD i 0 = 1 ∨ ∃ sp ∈ l, pieceSetsIndex c ks sp i) := by
  induction l generalizing acc with
  | nil => simpa using hlen
  | cons sp t ih =>
    have hlen' : (halfkpStep c ks acc sp).length = 768 := by
      rw [halfkpStep_length]; exact hlen
    obtain ⟨ihlen, ihgetD⟩ := ih (halfkpStep c ks acc sp) hlen'
    refine ⟨by simpa using ihlen, fun i hi => ?_⟩
    rw [List.foldl_cons, ihgetD i hi, halfkpStep_getD c ks acc sp i hi hlen]
    constructor
    · rintro ((h | h) | ⟨sp', hsp', h⟩)
      · exact Or.inl h
      · exact Or.inr ⟨sp, List.mem_cons_self sp t, h⟩
      · exact Or.inr ⟨sp', List.mem_cons_of_mem sp hsp', h⟩
    · rintro (h | ⟨sp', hsp', h⟩)
      · exact Or.inl (Or.inl h)
      · rcases List.mem_cons.mp hsp' with rfl | hmem
        · exact Or.inl (Or.inr h)
        · exact Or.inr ⟨sp', hmem, h⟩

theorem getD_replicate_zero (n i : Nat) : (List.replicate n (0 : ℚ)).getD i 0 = 0 := by
  induction n generalizing i with
  | zero => simp
  | succ m ih =>
    cases i with
    | zero => simp [List.replicate]
    | succ j => rw [List.replicate, List.getD_cons_succ]; exact ih j

/-- C2 theorem. For every board whose king of the requested perspective is
found, the encoder's output has length 768, and bit `i < 768` is set exactly
when some non-king piece-map entry is mapped to `i` by the HalfKP formula
`kingSquare*10*64 + allyOrEnemyBucket*6*64 + pieceTypeBucket*64 + pieceSquare`
(squares rank-mirrored for the black perspective); indices computed outside
[0, 768) are dropped — they never write a bit and the (total) function cannot
fault on them. -/
theorem halfkp_index_formula (b : Board) (c : Bool) (ks0 : Nat)
    (h : b.king c = some ks0) :
    (get_halfkp_features b c).length = 768 ∧
      ∀ i, i < 768 →
        ((get_halfkp_features b c).getD i 0 = 1 ↔
          ∃ sp ∈ b.pieceMap, pieceSetsIndex c (mirrorIf c ks0) sp i) := by
  unfold get_halfkp_features
  rw [h]
  obtain ⟨hlen, hchar⟩ := foldl_halfkp_char c (mirrorIf c ks0) b.pieceMap
    (List.replicate 768 0) (List.length_replicate 768 0)
  refine ⟨hlen, fun i hi => ?_⟩
  rw [hchar i hi, getD_replicate_zero]
  simp

/-- A minimal well-formed board: white king on a1 (square 0), white pawn on
b1 (square 1). Used to witness `halfkp_index_formula` at a concrete input. -/
def witnessBoard : Board :=
  { pieceMap := [(0, ⟨PieceType.king, true⟩), (1, ⟨PieceType.pawn, true⟩)],
    turn := true }

/-- Witness for C2: `halfkp_index_formula` applied to `witnessBoard` from
the white perspective, whose king sits on square 0. -/
theorem halfkp_index_formula_witness :
    witnessBoard.king WHITE = some 0 ∧
      ((get_halfkp_features witnessBoard WHITE).length = 768 ∧
        ∀ i, i < 768 →
          ((get_halfkp_features witnessBoard WHITE).getD i 0 = 1 ↔
            ∃ sp ∈ witnessBoard.pieceMap,
              pieceSetsIndex WHITE (mirrorIf WHITE 0) sp i)) :=
  ⟨by decide, halfkp_index_formula witnessBoard WHITE 0 (by decide)⟩

/-- C10 theorem. When the king of the requested perspective cannot be
located, the encoder returns the all-zero vector of length 768; being a
total function, it raises no error. -/
theorem missing_king_zero_vector (b : Board) (c : Bool) (h : b.king c = none) :
    get_halfkp_features b c = List.replicate 768 0 := by
  unfold get_halfkp_features
  rw [h]

/-- A board with no kings at all: a lone white pawn on e4 (square 28). -/
def kinglessBoard : Board :=
  { pieceMap := [(28, ⟨PieceType.pawn, true⟩)], turn := true }

/-- Witness for C10: `missing_king_zero_vector` applied to `kinglessBoard`,
whose white king is missing. -/
theorem missing_king_zero_vector_witness :
    kinglessBoard.king WHITE = none ∧
      get_halfkp_features kinglessBoard WHITE = List.replicate 768 0 :=
  ⟨by decide, missing_king_zero_vector kinglessBoard WHITE (by decide)⟩

/-- The standard chess starting position's piece map (ascending squares,
as iterated by python-chess) with white to move. -/
def startBoard : Board :=
  { pieceMap :=
      [(0, ⟨PieceType.rook, true⟩), (1, ⟨PieceType.knight, true⟩),
       (2, ⟨PieceType.bishop, true⟩), (3, ⟨PieceType.queen, true⟩),
       (4, ⟨PieceType.king, true⟩), (5, ⟨PieceType.bishop, true⟩),
       (6, ⟨PieceType.knight, true⟩), (7, ⟨PieceType.rook, true⟩),
       (8, ⟨PieceType.pawn, true⟩), (9, ⟨PieceType.pawn, true⟩),
       (10, ⟨PieceType.pawn, true⟩), (11, ⟨PieceType.pawn, true⟩),
       (12, ⟨PieceType.pawn, true⟩), (13, ⟨PieceType.pawn, true⟩),
       (14, ⟨PieceType.pawn, true⟩), (15, ⟨PieceType.pawn, true⟩),
       (48, ⟨PieceType.pawn, false⟩), (49, ⟨PieceType.pawn, false⟩),
       (50, ⟨PieceType.pawn, false⟩), (51, ⟨PieceType.pawn, false⟩),
       (52, ⟨PieceType.pawn, false⟩), (53, ⟨PieceType.pawn, false⟩),
       (54, ⟨PieceType.pawn, false⟩), (55, ⟨PieceType.pawn, false⟩),
       (56, ⟨PieceType.rook, false⟩), (57, ⟨PieceType.knight, false⟩),
       (58, ⟨PieceType.bishop, false⟩), (59, ⟨PieceType.queen, false⟩),
       (60, ⟨PieceType.king, false⟩), (61, ⟨PieceType.bishop, false⟩),
       (62, ⟨PieceType.knight, false⟩), (63, ⟨PieceType.rook, false⟩)],
    turn := true }

/-- C1 theorem (exhibits the code bug). On the standard starting position
the encoder returns the all-zero vector for both perspectives — 0 set bits,
not the 30 the claim demands: the white king sits on square 4, so every
HalfKP index is at least 4*10*64 = 2560 and is dropped by the `< 768`
guard (black mirrors to the same king square). -/
theorem startpos_features_all_zero :
    get_halfkp_features startBoard WHITE = List.replicate 768 0 ∧
      get_halfkp_features startBoard BLACK = List.replicate 768 0 :=
  ⟨rfl, rfl⟩

/-! ## Score mapping: `ModelEvaluator.evaluate_position` and
`ChessDataset.__getitem__` -/

/-- `ModelEvaluator.evaluate_position` (lines 52-73 of `model_eval.py`),
with the network abstracted as a function from feature vectors to the
bounded scalar it returns: select the mover's feature vector, evaluate,
multiply by `eval_scale`, and negate when black is to move. -/
def evaluate_position (model : List ℚ → ℚ) (scale : ℚ) (b : Board) : ℚ :=
  if b.turn = BLACK then
    -(model (if b.turn = WHITE then get_halfkp_features b WHITE
             else get_halfkp_features b BLACK) * scale)
  else
    model (if b.turn = WHITE then get_halfkp_features b WHITE
           else get_halfkp_features b BLACK) * scale

/-- The score-mapping tail of `evaluate_position` in isolation (lines
64-71 of `model_eval.py`): `evaluation *= eval_scale`, then negate for
black to move. -/
def score_to_external (scale x : ℚ) (turn : Bool) : ℚ :=
  if turn = BLACK then -(x * scale) else x * scale

/-- `np.clip x lo hi`. -/
def np_clip (x lo hi : ℚ) : ℚ := if x < lo then lo else if x > hi then hi else x

/-- The target normalization of `ChessDataset.__getitem__` (lines 148-157
of `nnue_trainer.py`): negate the stored (white-positive) evaluation when
black is to move, then clip `evaluation / eval_scale` to [-1, 1]. -/
def external_to_target (scale ev : ℚ) (turn : Bool) : ℚ :=
  np_clip ((if turn = WHITE then ev else -ev) / scale) (-1) 1

/-- C7 theorem. The forward score map satisfies
`externalScore = boundedScalar * eval_scale`, negated exactly when black
is to move: `evaluate_position` returns `model features * scale` for white
to move and `-(model features * scale)` for black to move, where
`features` is the mover's perspective encoding; moreover the tail of the
computation is exactly `score_to_external`. -/
theorem evaluate_position_sign_scale (model : List ℚ → ℚ) (scale : ℚ) (b : Board) :
    evaluate_position model scale b =
      (if b.turn = WHITE then model (get_halfkp_features b WHITE) * scale
       else -(model (get_halfkp_features b BLACK) * scale)) ∧
    evaluate_position model scale b =
      score_to_external scale
        (model (if b.turn = WHITE then get_halfkp_features b WHITE
                else get_halfkp_features b BLACK)) b.turn := by
  unfold evaluate_position score_to_external WHITE BLACK
  cases b.turn <;> simp

/-- C8 theorem. For every bounded scalar strictly inside (-1, 1), positive
`eval_scale` and either side to move, mapping to the external score and
back to a training target is the identity (exactly, over ℚ):
`external_to_target scale (score_to_external scale x turn) turn = x`. -/
theorem score_roundtrip (scale x : ℚ) (turn : Bool)
    (hs : 0 < scale) (hlo : -1 < x) (hhi : x < 1) :
    external_to_target scale (score_to_external scale x turn) turn = x := by
  have hne : scale ≠ 0 := ne_of_gt hs
  have hdiv : ∀ y : Bool,
      (if y = WHITE then score_to_external scale x y
       else -score_to_external scale x y) / scale = x := by
    intro y
    cases y <;> simp [score_to_external, WHITE, BLACK, mul_div_assoc,
      mul_div_cancel_right₀, hne]
  unfold external_to_target
  rw [hdiv turn]
  unfold np_clip
  rw [if_neg (by linarith), if_neg (by simp; linarith)]

/-- Witness for C8: the round trip at `eval_scale = 361`, bounded scalar
`1/2`, black to move. -/
theorem score_roundtrip_witness :
    (0 : ℚ) < 361 ∧ (-1 : ℚ) < 1/2 ∧ (1/2 : ℚ) < 1 ∧
      external_to_target 361 (score_to_external 361 (1/2) BLACK) BLACK = 1/2 :=
  ⟨by norm_num, by norm_num, by norm_num,
    score_roundtrip 361 (1/2) BLACK (by norm_num) (by norm_num) (by norm_num)⟩

/-! ## Quantizer/Exporter: `NNUEExporter.export_stockfish_nnue` -/

/-- The architecture fields of `TrainingConfig` consumed by the exporter. -/
structure TrainingConfig where
  input_size : Nat := 768
  hidden_size : Nat := 256
deriving Repr

/-- `struct.pack '<I' v`: four little-endian bytes (for `v < 2^32`). -/
def le32 (v : Nat) : List Nat :=
  [v % 256, v / 256 % 256, v / 65536 % 256, v / 16777216 % 256]

/-- Reassemble a 32-bit little-endian value from four bytes. -/
def de32 : List Nat → Nat
  | [a, b, c, d] => a + 256 * b + 65536 * c + 16777216 * d
  | _ => 0

/-- The bytes of the magic tag `b'NNUE'`. -/
def MAGIC : List Nat := [78, 78, 85, 69]

/-- The description string written by `export_stockfish_nnue` (line 322 of
`model_eval.py`): `"NNUE {input_size}->{hidden_size}->1"`. -/
def description_string (cfg : TrainingConfig) : String :=
  "NNUE " ++ Nat.repr cfg.input_size ++ "->" ++ Nat.repr cfg.hidden_size ++ "->1"

/-- `str.encode 'utf-8'` for ASCII strings (every character of the
description is ASCII, where UTF-8 is the identity on code points). -/
def utf8_bytes (s : String) : List Nat := s.data.map Char.toNat

/-- The floating-point parameter tensors of the `NNUE` network, flattened,
with floats modelled as rationals. Registration order follows the
`nn.Sequential` definitions in `NNUE.__init__` (`nnue_trainer.py` lines
179-193): `feature_transformer` holds linear layers at indices 0 and 2,
`output_layers` holds linear layers at indices 1 and 3. -/
structure NNUEParams where
  ft0_weight : List ℚ
  ft0_bias : List ℚ
  ft2_weight : List ℚ
  ft2_bias : List ℚ
  out1_weight : List ℚ
  out1_bias : List ℚ
  out3_weight : List ℚ
  out3_bias : List ℚ
deriving Repr

/-- `model.named_parameters()` in PyTorch registration order. -/
def named_parameters (p : NNUEParams) : List (String × List ℚ) :=
  [("feature_transformer.0.weight", p.ft0_weight),
   ("feature_transformer.0.bias", p.ft0_bias),
   ("feature_transformer.2.weight", p.ft2_weight),
   ("feature_transformer.2.bias", p.ft2_bias),
   ("output_layers.1.weight", p.out1_weight),
   ("output_layers.1.bias", p.out1_bias),
   ("output_layers.3.weight", p.out3_weight),
   ("output_layers.3.bias", p.out3_bias)]

/-- Does `needle` start `hay`? (character-list version) -/
def charsStart : List Char → List Char → Bool
  | _, [] => true
  | [], _ :: _ => false
  | a :: as, b :: bs => a == b && charsStart as bs

/-- Does `needle` occur contiguously inside `hay`? -/
def charsContain : List Char → List Char → Bool
  | [], needle => needle.isEmpty
  | a :: as, needle => charsStart (a :: as) needle || charsContain as needle

/-- Python's `needle in hay` substring test on strings. -/
def pyIn (needle hay : String) : Bool := charsContain hay.data needle.data

/-- Truncation toward zero of a rational, as the C-style float→int cast
performed by numpy `astype`. -/
def truncToward0 (q : ℚ) : Int := q.num / (q.den : Int)

/-- Two's-complement wrap of an integer to `w` bits, read as the
unsigned byte pattern (numpy `astype` narrows without any range check). -/
def wrapU (w : Nat) (v : Int) : Nat := (v % ((2 : Int) ^ w)).toNat

/-- `astype(np.int16).tobytes()` of one value: two little-endian bytes. -/
def int16_bytes (q : ℚ) : List Nat :=
  [wrapU 16 (truncToward0 q) % 256, wrapU 16 (truncToward0 q) / 256]

/-- `astype(np.int8).tobytes()` of one value: one byte. -/
def int8_bytes (q : ℚ) : List Nat := [wrapU 8 (truncToward0 q)]

/-- `astype(np.int32).tobytes()` of one value: four little-endian bytes. -/
def int32_bytes (q : ℚ) : List Nat :=
  [wrapU 32 (truncToward0 q) % 256, wrapU 32 (truncToward0 q) / 256 % 256,
   wrapU 32 (truncToward0 q) / 65536 % 256, wrapU 32 (truncToward0 q) / 16777216 % 256]

/-- A tensor narrowed to int16 and serialized. -/
def bytes16 (l : List ℚ) : List Nat := (l.map int16_bytes).flatten

/-- A tensor narrowed to int8 and serialized. -/
def bytes8 (l : List ℚ) : List Nat := (l.map int8_bytes).flatten

/-- A tensor narrowed to int32 and serialized. -/
def bytes32 (l : List ℚ) : List Nat := (l.map int32_bytes).flatten

/-- `NNUEExporter._write_feature_transformer` (lines 338-347 of
`model_eval.py`): scan all named parameters; names containing
`feature_transformer.0.weight` are written as int16, names containing
`feature_transformer.0.bias` as int32. -/
def write_feature_transformer (p : NNUEParams) : List Nat :=
  (named_parameters p).foldl (fun acc np =>
    if pyIn "feature_transformer.0.weight" np.1 then acc ++ bytes16 np.2
    else if pyIn "feature_transformer.0.bias" np.1 then acc ++ bytes32 np.2
    else acc) []

/-- `NNUEExporter._write_output_layers` (lines 349-358 of `model_eval.py`):
scan all named parameters; among names containing `output_layers`, weights
are written as int8 and biases as int32. -/
def write_output_layers (p : NNUEParams) : List Nat :=
  (named_parameters p).foldl (fun acc np =>
    if pyIn "output_layers" np.1 then
      if pyIn "weight" np.1 then acc ++ bytes8 np.2
      else if pyIn "bias" np.1 then acc ++ bytes32 np.2
      else acc
    else acc) []

/-- The full byte sequence written by `export_stockfish_nnue` (lines
315-331 of `model_eval.py`): magic, version hash `0x7AF32F16`,
architecture hash `177`, length-prefixed description, feature
transformer, output layers. -/
def export_blob (cfg : TrainingConfig) (p : NNUEParams) : List Nat :=
  MAGIC ++ le32 0x7AF32F16 ++ le32 177 ++
    le32 (utf8_bytes (description_string cfg)).length ++
    utf8_bytes (description_string cfg) ++
    write_feature_transformer p ++ write_output_layers p

/-- The result of a Python call: normal return or an uncaught exception. -/
inductive PyResult (α : Type) where
  | ok : α → PyResult α
  | exc : String → PyResult α
deriving DecidableEq, Repr

/-- The I/O environment of one export call: how many bytes the output
device accepts before the write raises. -/
structure ExportEnv where
  fuel : Nat
deriving Repr

/-- Observable outcome of one `export_stockfish_nnue` call. -/
structure ExportRun where
  result : PyResult Unit
  file : List Nat
  successPrinted : Bool
  errorPrinted : Bool
deriving Repr

/-- `NNUEExporter.export_stockfish_nnue` (lines 310-336 of
`model_eval.py`) including its `try/except`: the body writes the blob
sequentially; if the device fails before the blob is complete the write
raises, the `except Exception` handler catches it and prints
`Export failed`, and the method returns normally either way. Only a
complete write prints `Successfully exported`. -/
def export_stockfish_nnue (env : ExportEnv) (cfg : TrainingConfig)
    (p : NNUEParams) : ExportRun :=
  if (export_blob cfg p).length ≤ env.fuel then
    { result := .ok (), file := export_blob cfg p,
      successPrinted := true, errorPrinted := false }
  else
    { result := .ok (), file := (export_blob cfg p).take env.fuel,
      successPrinted := false, errorPrinted := true }

/-- An engine-side reader for the header of the exported blob: 4-byte
magic, 4-byte little-endian version, 4-byte little-endian architecture,
4-byte little-endian length `n`, then `n` description bytes. -/
def read_header (bs : List Nat) :
    Option (List Nat × Nat × Nat × List Nat) :=
  match bs with
  | m0 :: m1 :: m2 :: m3 :: v0 :: v1 :: v2 :: v3 ::
      a0 :: a1 :: a2 :: a3 :: n0 :: n1 :: n2 :: n3 :: rest =>
    if de32 [n0, n1, n2, n3] ≤ rest.length then
      some ([m0, m1, m2, m3], de32 [v0, v1, v2, v3], de32 [a0, a1, a2, a3],
        rest.take (de32 [n0, n1, n2, n3]))
    else none
  | _ => none

theorem de32_le32 (v : Nat) (h : v < 4294967296) : de32 (le32 v) = v := by
  show v % 256 + 256 * (v / 256 % 256) + 65536 * (v / 65536 % 256) +
    16777216 * (v / 16777216 % 256) = v
  omega

theorem read_header_spec (v a : Nat) (hv : v < 4294967296) (ha : a < 4294967296)
    (d rest : List Nat) (hd : d.length < 4294967296) :
    read_header (MAGIC ++ le32 v ++ le32 a ++ le32 d.length ++ d ++ rest) =
      some (MAGIC, v, a, d) := by
  have h1 : MAGIC ++ le32 v ++ le32 a ++ le32 d.length ++ d ++ rest =
      78 :: 78 :: 85 :: 69 :: (v % 256) :: (v / 256 % 256) :: (v / 65536 % 256) ::
      (v / 16777216 % 256) :: (a % 256) :: (a / 256 % 256) :: (a / 65536 % 256) ::
      (a / 16777216 % 256) :: (d.length % 256) :: (d.length / 256 % 256) ::
      (d.length / 65536 % 256) :: (d.length / 16777216 % 256) :: (d ++ rest) := by
    simp [MAGIC, le32]
  have hn : de32 [d.length % 256, d.length / 256 % 256, d.length / 65536 % 256,
      d.length / 16777216 % 256] = d.length := de32_le32 d.length hd
  have hvv : de32 [v % 256, v / 256 % 256, v / 65536 % 256, v / 16777216 % 256] = v :=
    de32_le32 v hv
  have haa : de32 [a % 256, a / 256 % 256, a / 65536 % 256, a / 16777216 % 256] = a :=
    de32_le32 a ha
  rw [h1]
  simp only [read_header, hn, hvv, haa]
  rw [if_pos (by simp)]
  rw [List.take_left]
  simp [MAGIC]

/-- C4 theorem. The exported blob begins with the 4-byte magic tag, the
4-byte little-endian version identifier `0x7AF32F16`, the 4-byte
little-endian architecture identifier `177`, and a 4-byte little-endian
length followed by exactly that many UTF-8 bytes of the description
string `"NNUE {input_size}->{hidden_size}->1"`; re-reading the header
from the written bytes recovers exactly the magic, version, architecture
and description that were written. -/
theorem header_roundtrip (cfg : TrainingConfig) (p : NNUEParams)
    (hd : (utf8_bytes (description_string cfg)).length < 4294967296) :
    read_header (export_blob cfg p) =
      some (MAGIC, 0x7AF32F16, 177, utf8_bytes (description_string cfg)) := by
  have h : export_blob cfg p =
      MAGIC ++ le32 0x7AF32F16 ++ le32 177 ++
        le32 (utf8_bytes (description_string cfg)).length ++
        utf8_bytes (description_string cfg) ++
        (write_feature_transformer p ++ write_output_layers p) := by
    unfold export_blob
    simp [List.append_assoc]
  rw [h]
  exact read_header_spec 0x7AF32F16 177 (by norm_num) (by norm_num) _ _ hd

/-- A parameter record with all tensors empty, used for concrete runs. -/
def params0 : NNUEParams :=
  { ft0_weight := [], ft0_bias := [], ft2_weight := [], ft2_bias := [],
    out1_weight := [], out1_bias := [], out3_weight := [], out3_bias := [] }

/-- The default architecture: `input_size = 768`, `hidden_size = 256`. -/
def cfg768 : TrainingConfig := { input_size := 768, hidden_size := 256 }

/-- Witness for C4: the header round trip at the default 768->256
architecture. -/
theorem header_roundtrip_witness :
    (utf8_bytes (description_string cfg768)).length < 4294967296 ∧
      read_header (export_blob cfg768 params0) =
        some (MAGIC, 0x7AF32F16, 177, utf8_bytes (description_string cfg768)) :=
  ⟨by decide, header_roundtrip cfg768 params0 (by decide)⟩

theorem bytes16_length (l : List ℚ) : (bytes16 l).length = 2 * l.length := by
  induction l with
  | nil => rfl
  | cons a t ih =>
    show (int16_bytes a ++ bytes16 t).length = 2 * (t.length + 1)
    rw [List.length_append, ih]
    simp [int16_bytes]
    omega

theorem bytes32_length (l : List ℚ) : (bytes32 l).length = 4 * l.length := by
  induction l with
  | nil => rfl
  | cons a t ih =>
    show (int32_bytes a ++ bytes32 t).length = 4 * (t.length + 1)
    rw [List.length_append, ih]
    simp [int32_bytes]
    omega

/-- C5 theorem. The feature-transformer section is the int16-narrowed
weights immediately followed by the int32-narrowed bias; the output
section is, in forward-pass order, each linear layer's int8-narrowed
weights followed by its int32-narrowed bias. The narrowing functions are
total — no value is rejected for being out of range (the hypotheses
constrain only tensor shapes, never values). For the default shapes the
feature-transformer weight section is exactly 768*256*2 bytes and the
bias section exactly 256*4 bytes. -/
theorem export_sections_width_order (p : NNUEParams)
    (hw : p.ft0_weight.length = 768 * 256) (hb : p.ft0_bias.length = 256) :
    write_feature_transformer p = bytes16 p.ft0_weight ++ bytes32 p.ft0_bias ∧
    write_output_layers p =
      bytes8 p.out1_weight ++ bytes32 p.out1_bias ++
        bytes8 p.out3_weight ++ bytes32 p.out3_bias ∧
    (bytes16 p.ft0_weight).length = 768 * 256 * 2 ∧
    (bytes32 p.ft0_bias).length = 256 * 4 := by
  refine ⟨rfl, rfl, ?_, ?_⟩
  · rw [bytes16_length, hw]
  · rw [bytes32_length, hb]

/-- Parameters with the default 768->256 feature-transformer shapes (all
values zero), witnessing the shape hypotheses of
`export_sections_width_order`. -/
def paramsDefaultShape : NNUEParams :=
  { ft0_weight := List.replicate (768 * 256) 0, ft0_bias := List.replicate 256 0,
    ft2_weight := [], ft2_bias := [], out1_weight := [], out1_bias := [],
    out3_weight := [], out3_bias := [] }

/-- Witness for C5: `export_sections_width_order` at concrete parameters
of the default shapes. -/
theorem export_sections_width_order_witness :
    paramsDefaultShape.ft0_weight.length = 768 * 256 ∧
    paramsDefaultShape.ft0_bias.length = 256 ∧
    (write_feature_transformer paramsDefaultShape =
        bytes16 paramsDefaultShape.ft0_weight ++ bytes32 paramsDefaultShape.ft0_bias ∧
      write_output_layers paramsDefaultShape =
        bytes8 paramsDefaultShape.out1_weight ++ bytes32 paramsDefaultShape.out1_bias ++
          bytes8 paramsDefaultShape.out3_weight ++ bytes32 paramsDefaultShape.out3_bias ∧
      (bytes16 paramsDefaultShape.ft0_weight).length = 768 * 256 * 2 ∧
      (bytes32 paramsDefaultShape.ft0_bias).length = 256 * 4) :=
  ⟨List.length_replicate (768 * 256) 0, List.length_replicate 256 0,
    export_sections_width_order paramsDefaultShape
      (List.length_replicate (768 * 256) 0) (List.length_replicate 256 0)⟩

/-- C6 theorem. The blob depends only on the header, the
`feature_transformer.0` parameters and the `output_layers` parameters:
varying the feature transformer's second linear layer
(`feature_transformer.2`, the hidden->32 map) arbitrarily never changes a
byte of the blob, and on a model whose other tensors are empty the two
parameter writers emit nothing for `feature_transformer.2` — its name
matches neither `feature_transformer.0.weight`/`feature_transformer.0.bias`
nor `output_layers`. -/
theorem export_ignores_ft2 (cfg : TrainingConfig) (p : NNUEParams)
    (w b : List ℚ) :
    export_blob cfg { p with ft2_weight := w, ft2_bias := b } = export_blob cfg p ∧
    write_feature_transformer { params0 with ft2_weight := w, ft2_bias := b } = [] ∧
    write_output_layers { params0 with ft2_weight := w, ft2_bias := b } = [] :=
  ⟨rfl, rfl, rfl⟩

/-- C3 counterexample. A failing write does not propagate to the caller:
with a device that accepts 0 bytes the body raises, yet
`export_stockfish_nnue` returns normally (`PyResult.ok ()`), because its
`except Exception` handler catches the error and merely prints it. This
refutes the claim that the failure propagates to the immediate caller. -/
theorem export_failure_not_propagated :
    0 < (export_blob cfg768 params0).length ∧
      (export_stockfish_nnue ⟨0⟩ cfg768 params0).result = PyResult.ok () := by
  exact ⟨by decide, rfl⟩

/-- C3 amended theorem. If any failure occurs while writing the binary
artifact, `export_stockfish_nnue` catches it internally: the call still
returns normally to the immediate caller (no exception propagates), the
body is run exactly once (no retry), the failure is reported by printing
`Export failed` instead of `Successfully exported`, and only the partial
prefix of the blob reaches the file — the partial artifact is never
reported as a valid export. -/
theorem export_failure_swallowed (env : ExportEnv) (cfg : TrainingConfig)
    (p : NNUEParams) (h : env.fuel < (export_blob cfg p).length) :
    (export_stockfish_nnue env cfg p).result = PyResult.ok () ∧
    (export_stockfish_nnue env cfg p).errorPrinted = true ∧
    (export_stockfish_nnue env cfg p).successPrinted = false ∧
    (export_stockfish_nnue env cfg p).file = (export_blob cfg p).take env.fuel := by
  unfold export_stockfish_nnue
  rw [if_neg (by omega)]
  exact ⟨rfl, rfl, rfl, rfl⟩

/-- Witness for the C3 amended theorem: a concrete failing export (device
accepts 0 bytes, default architecture, empty tensors). -/
theorem export_failure_swallowed_witness :
    (ExportEnv.mk 0).fuel < (export_blob cfg768 params0).length ∧
      ((export_stockfish_nnue ⟨0⟩ cfg768 params0).result = PyResult.ok () ∧
       (export_stockfish_nnue ⟨0⟩ cfg768 params0).errorPrinted = true ∧
       (export_stockfish_nnue ⟨0⟩ cfg768 params0).successPrinted = false ∧
       (export_stockfish_nnue ⟨0⟩ cfg768 params0).file =
         (export_blob cfg768 params0).take (ExportEnv.mk 0).fuel) :=
  ⟨by decide, export_failure_swallowed ⟨0⟩ cfg768 params0 (by decide)⟩

/-! ## EvaluationNetwork: class `NNUE` (`nnue_trainer.py` lines 172-212),
over the reals -/

/-- `nn.ReLU`. -/
noncomputable def relu (x : ℝ) : ℝ := max x 0

/-- An `nn.Linear n m`: an m-by-n weight matrix and an m-entry bias. -/
structure Linear (n m : Nat) where
  weight : Fin m → Fin n → ℝ
  bias : Fin m → ℝ

/-- Application of a linear layer: `y i = (sum j, W i j * x j) + b i`. -/
noncomputable def Linear.apply {n m : Nat} (L : Linear n m) (x : Fin n → ℝ) :
    Fin m → ℝ :=
  fun i => (∑ j, L.weight i j * x j) + L.bias i

/-- Componentwise ReLU. -/
noncomputable def reluV {n : Nat} (x : Fin n → ℝ) : Fin n → ℝ :=
  fun i => relu (x i)

/-- The four linear layers registered by `NNUE.__init__`:
`feature_transformer` = Linear(input_size, hidden_size), ReLU,
Linear(hidden_size, 32); `output_layers` = ReLU, Linear(32, 32), ReLU,
Linear(32, 1), Tanh. -/
structure NNUENet (cfg : TrainingConfig) where
  ft0 : Linear cfg.input_size cfg.hidden_size
  ft2 : Linear cfg.hidden_size 32
  out1 : Linear 32 32
  out3 : Linear 32 1

/-- `NNUE.forward`: the feature transformer followed by the output
layers, in the order fixed by the two `nn.Sequential` definitions. -/
noncomputable def NNUE_forward {cfg : TrainingConfig} (net : NNUENet cfg)
    (x : Fin cfg.input_size → ℝ) : ℝ :=
  Real.tanh ((net.out3.apply (reluV (net.out1.apply (reluV
    (net.ft2.apply (reluV (net.ft0.apply x))))))) 0)

theorem tanh_mem_Ioo (x : ℝ) : -1 < Real.tanh x ∧ Real.tanh x < 1 := by
  have key : ∀ y : ℝ, Real.tanh y < 1 := by
    intro y
    rw [Real.tanh_eq_sinh_div_cosh, div_lt_one (Real.cosh_pos y)]
    exact Real.sinh_lt_cosh y
  refine ⟨?_, key x⟩
  have hx := key (-x)
  rw [Real.tanh_neg] at hx
  linarith

/-- C9 theorem. For every parameter assignment and every feature vector
of the configured input length, `NNUE_forward` lies strictly within
(-1, 1), and it is exactly the composition: linear input_size->hidden_size,
ReLU, linear hidden_size->32, ReLU, linear 32->32, ReLU, linear 32->1,
then the saturating hyperbolic tangent. -/
theorem nnue_forward_bounded {cfg : TrainingConfig} (net : NNUENet cfg)
    (x : Fin cfg.input_size → ℝ) :
    (-1 < NNUE_forward net x ∧ NNUE_forward net x < 1) ∧
    NNUE_forward net x =
      Real.tanh ((net.out3.apply (reluV (net.out1.apply (reluV
        (net.ft2.apply (reluV (net.ft0.apply x))))))) 0) :=
  ⟨tanh_mem_Ioo _, rfl⟩
